import Mathlib

/-!
Verification development for the fossil source-control integration layer:
status parser, resource-group classification, repository state machine,
operation serializer, and the interactive helpers of interaction.ts.

The core modules (repository, openedRepository, fossilExecutable) ship only
their tests and callers here, so those parts are modelled from the
specification; interaction.ts is embedded directly from its source.
-/

/-- Modelled from the spec: the ResourceStatus enum of openedRepository
(MODIFIED, ADDED, DELETED, RENAMED, MISSING, EXTRA, CONFLICT, plus
merge-specific variants).  The raw status code EDITED maps to MODIFIED,
as the test suite for resource actions shows. -/
inductive ResourceStatus where
  | MODIFIED
  | ADDED
  | DELETED
  | RENAMED
  | MISSING
  | EXTRA
  | CONFLICT
  | UPDATED_BY_MERGE
deriving DecidableEq, Repr

/-- Modelled from the spec: one typed (status-kind, path) record produced by
the status parser; RENAMED records may carry the old path. -/
structure RawStatusRecord where
  status : ResourceStatus
  path : String
  renameFrom : Option String
deriving DecidableEq, Repr

instance : Inhabited RawStatusRecord :=
  ⟨⟨ResourceStatus.MODIFIED, "", none⟩⟩

/-- Split a character list at every occurrence of a separator character. -/
def splitCharAux (sep : Char) : List Char → List Char → List String
  | [], acc => [String.mk acc.reverse]
  | c :: cs, acc =>
      if c = sep then String.mk acc.reverse :: splitCharAux sep cs []
      else splitCharAux sep cs (c :: acc)

/-- Split a string at every occurrence of a separator character. -/
def splitChar (sep : Char) (s : String) : List String :=
  splitCharAux sep s.data []

/-- Modelled from the spec: the raw status output is line oriented. -/
def statusLines (raw : String) : List String :=
  splitChar '\n' raw

/-- Tokens of one status line: space separated, empty tokens dropped. -/
def lineTokens (l : String) : List String :=
  (splitChar ' ' l).filter (fun w => w ≠ "")

/-- Modelled from the spec: the fixed status-code vocabulary of the parser.
EDITED is reported by the tool for modified files and maps to MODIFIED. -/
def statusOfCode : String → Option ResourceStatus
  | "ADDED" => some ResourceStatus.ADDED
  | "DELETED" => some ResourceStatus.DELETED
  | "EDITED" => some ResourceStatus.MODIFIED
  | "EXTRA" => some ResourceStatus.EXTRA
  | "MISSING" => some ResourceStatus.MISSING
  | "RENAMED" => some ResourceStatus.RENAMED
  | "CONFLICT" => some ResourceStatus.CONFLICT
  | "UPDATED_BY_MERGE" => some ResourceStatus.UPDATED_BY_MERGE
  | _ => none

/-- Join tokens back into a path with single spaces. -/
def joinTokens : List String → String
  | [] => ""
  | [w] => w
  | w :: ws => w ++ " " ++ joinTokens ws

/-- Modelled from the spec: build the record for a recognized line; a
RENAMED line carrying an old-path token yields a renameFrom field. -/
def recordFromParts (st : ResourceStatus) (rest : List String) : RawStatusRecord :=
  if st = ResourceStatus.RENAMED then
    match rest with
    | [old, arrow, nw] =>
        if arrow = "->" then ⟨st, nw, some old⟩
        else ⟨st, joinTokens rest, none⟩
    | _ => ⟨st, joinTokens rest, none⟩
  else ⟨st, joinTokens rest, none⟩

/-- Modelled from the spec: parse one status line of the form CODE path;
blank lines and lines with an unrecognized code yield none. -/
def parseLine (l : String) : Option RawStatusRecord :=
  match lineTokens l with
  | [] => none
  | code :: rest =>
    match statusOfCode code, rest with
    | some st, _ :: _ => some (recordFromParts st rest)
    | _, _ => none

/-- A line is recognized when it has a known status code and a path token. -/
def recognizedLine (l : String) : Bool :=
  match lineTokens l with
  | code :: _ :: _ => (statusOfCode code).isSome
  | _ => false

/-- The record of a recognized line (default record on unrecognized ones). -/
def recordOfLine (l : String) : RawStatusRecord :=
  (parseLine l).getD default

/-- Modelled from the spec: the status parser, one record per recognized
line, in input order; everything else is silently dropped. -/
def parse (raw : String) : List RawStatusRecord :=
  (statusLines raw).filterMap parseLine

/-- Modelled from the spec: the resource-group kinds owned by the
Repository State Machine. -/
inductive GroupKind where
  | working
  | staging
  | untracked
  | conflict
  | merge
deriving DecidableEq, Repr

/-- Modelled from the spec: merge-marker status codes. -/
def isMergeMarker : ResourceStatus → Bool
  | ResourceStatus.UPDATED_BY_MERGE => true
  | _ => false

/-- Modelled from the spec: the classification rule, first match wins:
staged paths go to staging, EXTRA to untracked, conflict and merge-marker
codes to conflict, everything else to working. -/
def classifyRecord (staged : List String) (r : RawStatusRecord) : GroupKind :=
  if r.path ∈ staged then GroupKind.staging
  else if r.status = ResourceStatus.EXTRA then GroupKind.untracked
  else if r.status = ResourceStatus.CONFLICT ∨ isMergeMarker r.status then GroupKind.conflict
  else GroupKind.working

/-- Modelled from the spec: the named resource groups. -/
structure Groups where
  working : List RawStatusRecord
  staging : List RawStatusRecord
  untracked : List RawStatusRecord
  conflict : List RawStatusRecord
  merge : List RawStatusRecord
deriving DecidableEq, Repr

/-- The list held by a group kind. -/
def Groups.list (g : Groups) : GroupKind → List RawStatusRecord
  | GroupKind.working => g.working
  | GroupKind.staging => g.staging
  | GroupKind.untracked => g.untracked
  | GroupKind.conflict => g.conflict
  | GroupKind.merge => g.merge

/-- Modelled from the spec: classify a snapshot of records into groups;
membership is fully recomputed from the raw records on every refresh. -/
def classify (staged : List String) (records : List RawStatusRecord) : Groups where
  working := records.filter (fun r => classifyRecord staged r = GroupKind.working)
  staging := records.filter (fun r => classifyRecord staged r = GroupKind.staging)
  untracked := records.filter (fun r => classifyRecord staged r = GroupKind.untracked)
  conflict := records.filter (fun r => classifyRecord staged r = GroupKind.conflict)
  merge := records.filter (fun r => classifyRecord staged r = GroupKind.merge)

/-- The paths of a group list. -/
def pathsOf (rs : List RawStatusRecord) : List String :=
  rs.map RawStatusRecord.path

/-- Modelled from the spec: the error raised by operations on a closed
repository. -/
inductive StateError where
  | notOpen
deriving DecidableEq, Repr

/-- Modelled from the spec: events published to UI collaborators. -/
inductive RepoEvent where
  | statusChanged (gs : Groups)
  | operationError (stderr : String)
deriving DecidableEq, Repr

/-- Modelled from the spec: the outcome of the external status call. -/
inductive RefreshOutcome where
  | success (raw : String)
  | execFailure (stderr : String)
deriving DecidableEq, Repr

/-- Modelled from the spec: the aggregate Repository root owning the
groups, the staged-this-session set and the closed flag. -/
structure Repository where
  groups : Groups
  staged : List String
  isMerge : Bool
  closed : Bool
deriving DecidableEq, Repr

/-- Modelled from the spec: completion of a status refresh at the
Repository State Machine boundary.  ExecFailure is caught and turned into
an error event, leaving the last-known-good groups untouched; success
reclassifies the parsed records and publishes the new snapshot. -/
def applyRefresh (repo : Repository) (outcome : RefreshOutcome) :
    Repository × List RepoEvent :=
  match outcome with
  | RefreshOutcome.execFailure e => (repo, [RepoEvent.operationError e])
  | RefreshOutcome.success raw =>
      let gs := classify repo.staged (parse raw)
      ({ repo with groups := gs }, [RepoEvent.statusChanged gs])

/-- Modelled from the spec: the mutating actions of the repository. -/
inductive RepoAction where
  | add (paths : List String)
  | forget (paths : List String)
  | commit (message : String)
  | updateStatus
  | close
deriving DecidableEq, Repr

/-- Modelled from the spec: perform an action against the repository.
Every action on a closed repository fails with the not-open StateError and
changes nothing; close itself transitions to the terminal Closed state. -/
def performAction (repo : Repository) (a : RepoAction) :
    Repository × Except StateError Unit :=
  if repo.closed then (repo, Except.error StateError.notOpen)
  else
    match a with
    | RepoAction.close => ({ repo with closed := true }, Except.ok ())
    | RepoAction.add ps => ({ repo with staged := repo.staged ++ ps }, Except.ok ())
    | RepoAction.forget _ => (repo, Except.ok ())
    | RepoAction.commit _ => ({ repo with staged := [] }, Except.ok ())
    | RepoAction.updateStatus => (repo, Except.ok ())

/-- Modelled from the spec: the operation serializer state, tracking
whether an external status call is in flight, how many external
invocations were made, and how many callers coalesced into the in-flight
call and wait for it. -/
structure SerializerState where
  inFlight : Bool
  execCount : Nat
  waiters : Nat
deriving DecidableEq, Repr

/-- The idle serializer: nothing in flight, nothing invoked yet. -/
def idleSerializer : SerializerState :=
  ⟨false, 0, 0⟩

/-- Modelled from the spec: one updateStatus call arriving at the
serializer.  While a call is in flight, the new caller coalesces into it;
otherwise a fresh external invocation starts. -/
def updateStatusCall (s : SerializerState) : SerializerState :=
  if s.inFlight then { s with waiters := s.waiters + 1 }
  else { s with inFlight := true, execCount := s.execCount + 1 }

/-- Issue n updateStatus calls, none of which resolves in between. -/
def issueCalls : SerializerState → Nat → SerializerState
  | s, 0 => s
  | s, n + 1 => issueCalls (updateStatusCall s) n

/-- Modelled from the spec: natural completion of the in-flight call
resolves every coalesced waiter plus the original caller. -/
def completeInFlight (s : SerializerState) : SerializerState × Nat :=
  ({ s with inFlight := false, waiters := 0 }, s.waiters + 1)

/-- Modelled from the spec: the ignore action appends a literal
newline-terminated pattern to the ignore-glob file, creating it when
absent (none) and never overwriting existing content. -/
def ignoreAction (existing : Option String) (pat : String) : String :=
  existing.getD "" ++ pat ++ "\n"

/-- The FossilStatus fields checkActiveMerge of interaction.ts reads. -/
structure FossilStatusInfo where
  isMerge : Bool
deriving DecidableEq, Repr

/-- From src/interaction.ts checkActiveMerge: when the repository status
reports an active merge, a modal merge-in-progress warning is shown and
the function returns whether the answer differs from Continue; otherwise
it returns false with no prompt.  The user answer to the modal warning is
passed in as an oracle; the second component records whether the modal
prompt was shown. -/
def checkActiveMerge (fossilStatus : Option FossilStatusInfo)
    (answer : Option String) : Bool × Bool :=
  if (fossilStatus.map FossilStatusInfo.isMerge).getD false then
    (decide (answer ≠ some "Continue"), true)
  else (false, false)

/-- From src/interaction.ts: one configured remote, name and URI. -/
structure FossilRemote where
  name : String
  uri : String
deriving DecidableEq, Repr

/-- From src/interaction.ts pickRemote: with exactly one remote its name
is returned at once; otherwise a quick-pick over the remotes is shown.
The quick-pick is modelled by the index the user picks (none when
dismissed); the second component records whether the quick-pick was
shown. -/
def pickRemote (remotes : List FossilRemote) (choice : Option Nat) :
    Option String × Bool :=
  if remotes.length = 1 then ((remotes[0]?).map FossilRemote.name, false)
  else
    (match choice with
     | some i => (remotes[i]?).map FossilRemote.name
     | none => none, true)

theorem parseLine_isSome (l : String) :
    (parseLine l).isSome = recognizedLine l := by
  unfold parseLine recognizedLine
  generalize lineTokens l = ws
  cases ws with
  | nil => rfl
  | cons code rest =>
    cases rest with
    | nil => cases h : statusOfCode code <;> simp [h]
    | cons p ps => cases h : statusOfCode code <;> simp [h]

theorem filterMap_parseLine (ls : List String) :
    ls.filterMap parseLine =
      (ls.filter (fun l => recognizedLine l)).map recordOfLine := by
  induction ls with
  | nil => rfl
  | cons l ls ih =>
    cases hp : parseLine l with
    | none =>
        have hr : recognizedLine l = false := by
          rw [← parseLine_isSome, hp]; rfl
        simp [List.filterMap_cons, List.filter_cons, hp, hr, ih]
    | some r =>
        have hr : recognizedLine l = true := by
          rw [← parseLine_isSome, hp]; rfl
        have ho : recordOfLine l = r := by
          unfold recordOfLine; rw [hp]; rfl
        simp [List.filterMap_cons, List.filter_cons, hp, hr, ho, ih]

theorem classify_list (staged : List String) (records : List RawStatusRecord)
    (k : GroupKind) :
    (classify staged records).list k =
      records.filter (fun r => classifyRecord staged r = k) := by
  cases k <;> rfl

theorem mem_pathsOf_classify (staged : List String)
    (records : List RawStatusRecord) (k : GroupKind) (p : String) :
    p ∈ pathsOf ((classify staged records).list k) ↔
      ∃ r ∈ records, classifyRecord staged r = k ∧ r.path = p := by
  rw [classify_list]
  unfold pathsOf
  simp only [List.mem_map, List.mem_filter, decide_eq_true_eq]
  constructor
  · rintro ⟨r, ⟨hr, hk⟩, hp⟩
    exact ⟨r, hr, hk, hp⟩
  · rintro ⟨r, hr, hk, hp⟩
    exact ⟨r, ⟨hr, hk⟩, hp⟩

/-- C3: parse emits exactly one record per recognized line (known code
followed by a path), in input order; blank lines and lines with an
unrecognized code are dropped, parse is a total function (never raises),
and input with no recognizable line yields the empty sequence. -/
theorem parse_characterization (raw : String) :
    parse raw =
        ((statusLines raw).filter (fun l => recognizedLine l)).map recordOfLine ∧
      ((∀ l ∈ statusLines raw, recognizedLine l = false) → parse raw = []) := by
  constructor
  · exact filterMap_parseLine (statusLines raw)
  · intro hnone
    unfold parse
    rw [filterMap_parseLine]
    have : (statusLines raw).filter (fun l => recognizedLine l) = [] := by
      apply List.filter_eq_nil_iff.mpr
      intro l hl
      simp [hnone l hl]
    rw [this]; rfl

/-- Witness for C3 at the empty input: no line of it is recognized and
parse yields the empty sequence. -/
theorem parse_characterization_empty :
    parse "" = [] :=
  (parse_characterization "").2 (by decide)

/-- C1 (amended): for every input sequence of raw status records with
pairwise distinct paths, classify produces groups whose paths are pairwise
disjoint, and the union of the group paths is exactly the set of paths
of the input records. -/
theorem classify_disjoint_union (staged : List String)
    (records : List RawStatusRecord)
    (hnd : (records.map RawStatusRecord.path).Nodup) :
    (∀ k₁ k₂ : GroupKind, k₁ ≠ k₂ → ∀ p : String,
        p ∈ pathsOf ((classify staged records).list k₁) →
        p ∉ pathsOf ((classify staged records).list k₂)) ∧
      (∀ p : String,
        (∃ k : GroupKind, p ∈ pathsOf ((classify staged records).list k)) ↔
          p ∈ records.map RawStatusRecord.path) := by
  constructor
  · intro k₁ k₂ hne p h1 h2
    rw [mem_pathsOf_classify] at h1 h2
    obtain ⟨r₁, hr₁, hk₁, hp₁⟩ := h1
    obtain ⟨r₂, hr₂, hk₂, hp₂⟩ := h2
    have heq : r₁ = r₂ :=
      List.inj_on_of_nodup_map hnd hr₁ hr₂ (hp₁.trans hp₂.symm)
    exact hne (hk₁.symm.trans (heq ▸ hk₂))
  · intro p
    constructor
    · rintro ⟨k, hk⟩
      rw [mem_pathsOf_classify] at hk
      obtain ⟨r, hr, _, hp⟩ := hk
      exact List.mem_map.mpr ⟨r, hr, hp⟩
    · intro hp
      obtain ⟨r, hr, hp⟩ := List.mem_map.mp hp
      exact ⟨classifyRecord staged r,
        (mem_pathsOf_classify _ _ _ _).mpr ⟨r, hr, rfl, hp⟩⟩

/-- Witness for C1 at a concrete input: for the single EXTRA record the
untracked path is in no other group. -/
theorem classify_disjoint_union_example :
    "a" ∉ pathsOf ((classify []
      [⟨ResourceStatus.EXTRA, "a", none⟩]).list GroupKind.working) :=
  (classify_disjoint_union [] [⟨ResourceStatus.EXTRA, "a", none⟩]
      (by decide)).1
    GroupKind.untracked GroupKind.working (by decide) "a" (by decide)

/-- Counterexample to C1 as stated: when the same path is reported twice
with different codes (EXTRA and EDITED), it is placed in both the
untracked and the working group, so the groups are not disjoint for every
input sequence. -/
theorem classify_disjoint_cex :
    "a" ∈ pathsOf ((classify []
        [⟨ResourceStatus.EXTRA, "a", none⟩,
         ⟨ResourceStatus.MODIFIED, "a", none⟩]).list GroupKind.untracked) ∧
      "a" ∈ pathsOf ((classify []
        [⟨ResourceStatus.EXTRA, "a", none⟩,
         ⟨ResourceStatus.MODIFIED, "a", none⟩]).list GroupKind.working) := by
  decide

/-- C2: a record whose path is in the staged-this-session set is classified
into the staging group regardless of its status code; concretely, the raw
status with two EXTRA lines yields an untracked group of exactly those two
EXTRA records, and a following refresh reporting both paths ADDED with
both staged yields a staging group with both and an empty untracked
group. -/
theorem staging_precedence :
    (∀ (staged : List String) (r : RawStatusRecord),
        r.path ∈ staged → classifyRecord staged r = GroupKind.staging) ∧
      (classify [] (parse "EXTRA a.txt\nEXTRA b.txt")).untracked =
        [⟨ResourceStatus.EXTRA, "a.txt", none⟩,
         ⟨ResourceStatus.EXTRA, "b.txt", none⟩] ∧
      (classify ["a.txt", "b.txt"] (parse "ADDED a.txt\nADDED b.txt")).staging =
        [⟨ResourceStatus.ADDED, "a.txt", none⟩,
         ⟨ResourceStatus.ADDED, "b.txt", none⟩] ∧
      (classify ["a.txt", "b.txt"] (parse "ADDED a.txt\nADDED b.txt")).untracked =
        [] := by
  refine ⟨?_, by decide, by decide, by decide⟩
  intro staged r hmem
  unfold classifyRecord
  rw [if_pos hmem]

/-- Witness for C2: a staged path reported EXTRA is classified staging. -/
theorem staging_precedence_example :
    classifyRecord ["x.txt"] ⟨ResourceStatus.EXTRA, "x.txt", none⟩ =
      GroupKind.staging :=
  staging_precedence.1 ["x.txt"] ⟨ResourceStatus.EXTRA, "x.txt", none⟩
    (by decide)

/-- C7: a record that is not staged and whose code is none of EXTRA,
CONFLICT or a merge marker (so ADDED pre-stage, MODIFIED, DELETED,
RENAMED, MISSING) is classified into the working group; concretely, a
refresh reporting ADDED paths never staged this session puts them in
working and leaves staging empty. -/
theorem working_classification :
    (∀ (staged : List String) (r : RawStatusRecord),
        r.path ∉ staged →
        (r.status = ResourceStatus.ADDED ∨ r.status = ResourceStatus.MODIFIED ∨
          r.status = ResourceStatus.DELETED ∨ r.status = ResourceStatus.RENAMED ∨
          r.status = ResourceStatus.MISSING) →
        classifyRecord staged r = GroupKind.working) ∧
      (classify [] (parse "ADDED a\nADDED b")).working =
        [⟨ResourceStatus.ADDED, "a", none⟩, ⟨ResourceStatus.ADDED, "b", none⟩] ∧
      (classify [] (parse "ADDED a\nADDED b")).staging = [] := by
  refine ⟨?_, by decide, by decide⟩
  intro staged r hmem hst
  unfold classifyRecord
  rw [if_neg hmem]
  rcases hst with h | h | h | h | h <;> rw [h] <;> rfl

/-- Witness for C7: an unstaged ADDED record lands in the working group. -/
theorem working_classification_example :
    classifyRecord [] ⟨ResourceStatus.ADDED, "a", none⟩ = GroupKind.working :=
  working_classification.1 [] ⟨ResourceStatus.ADDED, "a", none⟩ (by decide)
    (Or.inl rfl)

/-- C4: a status refresh that fails with ExecFailure leaves the previously
published group snapshot unchanged and observable, publishing exactly one
error event; indeed the whole repository value is untouched. -/
theorem refresh_stale_on_error (repo : Repository) (e : String) :
    (applyRefresh repo (RefreshOutcome.execFailure e)).1.groups = repo.groups ∧
      (applyRefresh repo (RefreshOutcome.execFailure e)).2 =
        [RepoEvent.operationError e] ∧
      (applyRefresh repo (RefreshOutcome.execFailure e)).1 = repo :=
  ⟨rfl, rfl, rfl⟩

/-- C5: on a closed repository every action fails with the not-open
StateError while the repository, its groups included, stays exactly as
last observed; the Closed state is terminal, and close always leaves the
repository closed. -/
theorem closed_terminal (repo : Repository) (a : RepoAction)
    (hc : repo.closed = true) :
    (performAction repo a).2 = Except.error StateError.notOpen ∧
      (performAction repo a).1 = repo ∧
      (performAction repo a).1.groups = repo.groups ∧
      (performAction repo a).1.closed = true ∧
      ((performAction repo RepoAction.close).1).closed = true := by
  simp [performAction, hc]

/-- Witness for C5: a concrete closed repository rejects a commit and its
groups are untouched. -/
theorem closed_terminal_example :
    (performAction ⟨⟨[], [], [], [], []⟩, [], false, true⟩
        (RepoAction.commit "m")).2 = Except.error StateError.notOpen ∧
      (performAction ⟨⟨[], [], [], [], []⟩, [], false, true⟩
        (RepoAction.commit "m")).1 = ⟨⟨[], [], [], [], []⟩, [], false, true⟩ :=
  ⟨(closed_terminal ⟨⟨[], [], [], [], []⟩, [], false, true⟩
      (RepoAction.commit "m") rfl).1,
   (closed_terminal ⟨⟨[], [], [], [], []⟩, [], false, true⟩
      (RepoAction.commit "m") rfl).2.1⟩

/-- C6: the ignore action appends a newline-terminated pattern, creating
the file when absent and never overwriting existing content: the first
ignore yields exactly the pattern plus newline, the second appends; in
general the previous content stays as a prefix of the new content. -/
theorem ignore_appends :
    ignoreAction none "autogenerated" = "autogenerated\n" ∧
      ignoreAction (some "autogenerated\n") "autogenerated2" =
        "autogenerated\nautogenerated2\n" ∧
      (∀ old pat : String, ∃ rest : String,
        ignoreAction (some old) pat = old ++ rest) := by
  refine ⟨rfl, rfl, fun old pat => ⟨pat ++ "\n", ?_⟩⟩
  apply String.ext
  simp [ignoreAction, String.data_append, List.append_assoc]

theorem issueCalls_inFlight (s : SerializerState) (n : Nat)
    (h : s.inFlight = true) :
    issueCalls s n =
      { s with waiters := s.waiters + n } := by
  induction n generalizing s with
  | zero => simp [issueCalls]
  | succ n ih =>
      rw [issueCalls]
      have hcall : updateStatusCall s = { s with waiters := s.waiters + 1 } := by
        simp [updateStatusCall, h]
      rw [hcall, ih { s with waiters := s.waiters + 1 } h]
      congr 1
      show s.waiters + 1 + n = s.waiters + (n + 1)
      omega

/-- C8: for every N of at least 1, N updateStatus calls issued while none
resolves in between produce exactly one external status invocation; the
remaining N - 1 callers coalesce into the in-flight call as waiters, and
natural completion of that one call resolves all N callers. -/
theorem single_flight (n : Nat) (h : 1 ≤ n) :
    (issueCalls idleSerializer n).execCount = 1 ∧
      (issueCalls idleSerializer n).inFlight = true ∧
      (issueCalls idleSerializer n).waiters = n - 1 ∧
      (completeInFlight (issueCalls idleSerializer n)).2 = n := by
  obtain ⟨m, rfl⟩ := Nat.exists_eq_add_of_le h
  have h1 : issueCalls idleSerializer (1 + m) =
      { inFlight := true, execCount := 1, waiters := m } := by
    rw [Nat.add_comm]
    rw [issueCalls]
    have : updateStatusCall idleSerializer =
        { inFlight := true, execCount := 1, waiters := 0 } := rfl
    rw [this, issueCalls_inFlight _ m rfl]
    simp
  rw [h1]
  refine ⟨rfl, rfl, ?_, ?_⟩
  · show m = 1 + m - 1
    omega
  · show m + 1 = 1 + m
    omega

/-- Witness for C8: three concurrent updateStatus calls on the idle
serializer make exactly one external invocation, and completing it
resolves all three. -/
theorem single_flight_example :
    (issueCalls idleSerializer 3).execCount = 1 ∧
      (issueCalls idleSerializer 3).inFlight = true ∧
      (issueCalls idleSerializer 3).waiters = 2 ∧
      (completeInFlight (issueCalls idleSerializer 3)).2 = 3 :=
  single_flight 3 (by decide)

/-- C9: checkActiveMerge returns false with no prompt when the repository
status is absent or reports no active merge; when a merge is active it
shows the modal merge-in-progress warning and returns true (blocking the
commit) unless the user answer is Continue. -/
theorem checkActiveMerge_spec :
    (∀ answer : Option String, checkActiveMerge none answer = (false, false)) ∧
      (∀ (st : FossilStatusInfo) (answer : Option String),
        st.isMerge = false → checkActiveMerge (some st) answer = (false, false)) ∧
      (∀ (st : FossilStatusInfo) (answer : Option String),
        st.isMerge = true → answer ≠ some "Continue" →
          checkActiveMerge (some st) answer = (true, true)) ∧
      (∀ st : FossilStatusInfo, st.isMerge = true →
        checkActiveMerge (some st) (some "Continue") = (false, true)) := by
  refine ⟨fun answer => rfl, ?_, ?_, ?_⟩
  · intro st answer hm
    simp [checkActiveMerge, hm]
  · intro st answer hm hne
    simp [checkActiveMerge, hm, hne]
  · intro st hm
    simp [checkActiveMerge, hm]

/-- Witness for C9: with an active merge and a dismissed prompt the commit
is blocked, the prompt having been shown. -/
theorem checkActiveMerge_example :
    checkActiveMerge (some ⟨true⟩) none = (true, true) :=
  checkActiveMerge_spec.2.2.1 ⟨true⟩ none rfl (by decide)

/-- C10 (amended): with exactly one remote pickRemote returns that remote
name at once without showing the quick-pick; with any other number of
remotes, the empty list included, the quick-pick is shown and the user
choice decides the result. -/
theorem pickRemote_spec :
    (∀ (r : FossilRemote) (choice : Option Nat),
        pickRemote [r] choice = (some r.name, false)) ∧
      (∀ (remotes : List FossilRemote) (choice : Option Nat),
        remotes.length ≠ 1 → (pickRemote remotes choice).2 = true) := by
  constructor
  · intro r choice
    simp [pickRemote]
  · intro remotes choice hlen
    cases choice <;> simp [pickRemote, hlen]

/-- Witness for C10: a single configured remote is returned without any
quick-pick, and with two remotes the quick-pick is shown. -/
theorem pickRemote_example :
    pickRemote [⟨"origin", "https://example.org"⟩] none =
      (some "origin", false) ∧
      (pickRemote [⟨"a", "u1"⟩, ⟨"b", "u2"⟩] (some 0)).2 = true :=
  ⟨pickRemote_spec.1 ⟨"origin", "https://example.org"⟩ none,
   pickRemote_spec.2 [⟨"a", "u1"⟩, ⟨"b", "u2"⟩] (some 0) (by decide)⟩

/-- Counterexample to C10 as stated: with zero remotes, fewer than two,
pickRemote still presents the quick-pick, so a user choice is not
requested only when two or more remotes exist. -/
theorem pickRemote_cex :
    ([] : List FossilRemote).length < 2 ∧
      (pickRemote [] none).2 = true := by
  decide
